import Mathlib

/-!
# sqs-worker: the poll cycle of `worker/worker.go` and its event traces

The worker talks to two collaborators that live outside the repository: the
SQS client (`worker.sqsClient`) and the user handler (`worker.handler`).  The
embedding makes every interaction with them, every log line and every interval
wait an `Event`; a function of `worker.go` becomes a function that returns the
events it produces, in program order, together with its Go result.

What the collaborators answer is an input of the model (`Collaborators`): one
record per poll cycle, since the service and the handler may answer differently
from one cycle to the next.

Two things end a cycle, and with it the run, before its last statement: a
handler call that does not return, and the nil dereference in `readFromQueue`
when the first received message lacks `Body` or `ReceiptHandle`.  Both are
recorded as `completed = false`.
-/

namespace SqsWorker

/-! ## AWS SDK request and response values used by `worker.go` -/

/-- A Go `error` value returned by the SDK, seen through its `Error()` text. -/
structure Err where
  text : String
deriving DecidableEq, Repr

/-- Go `err.Error()`. -/
def Err.Error (err : Err) : String := err.text

/-- Fields of `sqs.ReceiveMessageInput` set by `readFromQueue`. -/
structure ReceiveMessageInput where
  QueueUrl : String
  AttributeNames : List String
  MaxNumberOfMessages : Int
  MessageAttributeNames : List String
  VisibilityTimeout : Int
  WaitTimeSeconds : Int
deriving DecidableEq, Repr

/-- The members of `sqs.Message` read by `readFromQueue`.  Both are `*string` in
the SDK: `none` is the nil pointer of a member the response did not carry. -/
structure Message where
  Body : Option String
  ReceiptHandle : Option String
deriving DecidableEq, Repr

/-- Field of `sqs.ReceiveMessageOutput` read by `readFromQueue`. -/
structure ReceiveMessageOutput where
  Messages : List Message
deriving DecidableEq, Repr

/-- Fields of `sqs.DeleteMessageInput` set by `deleteMessage`. -/
structure DeleteMessageInput where
  QueueUrl : String
  ReceiptHandle : String
deriving DecidableEq, Repr

/-- The response `sqs.DeleteMessageOutput`: it carries no data. -/
structure DeleteMessageOutput where
deriving DecidableEq, Repr

/-- Fields of `sqs.SendMessageInput` set by `SendMessage`. -/
structure SendMessageInput where
  QueueUrl : String
  DelaySeconds : Int
  MessageBody : String
deriving DecidableEq, Repr

/-- The response `sqs.SendMessageOutput`; `SendMessage` discards it. -/
structure SendMessageOutput where
  MessageId : String
deriving DecidableEq, Repr

/-! ## Worker, collaborators, events -/

/-- The configuration fields of Go `Worker`.  The fields `handler` and
`sqsClient` are the collaborators, see `Collaborators`; the embedded logger is
the `println` event. -/
structure Worker where
  url : String
  region : String
  pollingIntervall : Int
deriving DecidableEq, Repr

/-- What `worker.sqsClient` and `worker.handler` do when they are called during
one poll cycle.  `handler payload = true` means the call returns; `false` means
it does not (the handler panics, which aborts the process, or never returns). -/
structure Collaborators where
  ReceiveMessage : ReceiveMessageInput → Except Err ReceiveMessageOutput
  DeleteMessage : DeleteMessageInput → Except Err DeleteMessageOutput
  SendMessage : SendMessageInput → Except Err SendMessageOutput
  handler : String → Bool

/-- An operand of a `worker.Println` call. -/
inductive LogArg where
  | str (s : String)
  | deleteOutput (resp : DeleteMessageOutput)
deriving DecidableEq, Repr

/-- The observable steps of the worker, in program order. -/
inductive Event where
  /-- The wait `<-time.After(worker.pollingIntervall)`. -/
  | wait (d : Int)
  /-- A call `worker.sqsClient.ReceiveMessage(params)`. -/
  | receiveMessage (params : ReceiveMessageInput)
  /-- A call `worker.Println(args...)`. -/
  | println (args : List LogArg)
  /-- The call `worker.handler(payload)` starts. -/
  | handlerCall (payload : String)
  /-- The call `worker.handler(payload)` has returned. -/
  | handlerReturn (payload : String)
  /-- A call `worker.sqsClient.DeleteMessage(params)`. -/
  | deleteMessage (params : DeleteMessageInput)
  /-- A call `worker.sqsClient.SendMessage(params)`. -/
  | sendMessage (params : SendMessageInput)
deriving DecidableEq, Repr

/-- The events of a piece of code and whether it ran to its end
(`completed = false`: a nil dereference panicked or the handler did not
return). -/
structure Run where
  trace : List Event
  completed : Bool
deriving DecidableEq, Repr

/-! ## The functions of `worker/worker.go` -/

/-- The `params` literal of `readFromQueue` (worker.go lines 60-71). -/
def readFromQueueParams (worker : Worker) : ReceiveMessageInput :=
  { QueueUrl := worker.url
    AttributeNames := ["QueueAttributeName"]
    MaxNumberOfMessages := 1
    MessageAttributeNames := ["All"]
    VisibilityTimeout := 1
    WaitTimeSeconds := 1 }

/-- Go `readFromQueue`: the events, and the returned pair
`(receiptHandle, payload)`, or `none` when the function panics.  In the error
branch the named result `receiptHandle` still has its zero value `""`.  Line 84
dereferences `Body`, then line 85 dereferences `ReceiptHandle`; a nil member
panics there. -/
def readFromQueue (worker : Worker) (c : Collaborators) :
    List Event × Option (String × String) :=
  let params := readFromQueueParams worker
  match c.ReceiveMessage params with
  | .error err =>
    ([.receiveMessage params, .println [.str "reading"], .println [.str err.Error]],
      some ("", ""))
  | .ok resp =>
    match resp.Messages with
    | [] => ([.receiveMessage params], some ("", ""))
    | m :: _ =>
      match m.Body with
      | none => ([.receiveMessage params], none)
      | some payload =>
        match m.ReceiptHandle with
        | none => ([.receiveMessage params], none)
        | some receiptHandle => ([.receiveMessage params], some (receiptHandle, payload))

/-- Go `deleteMessage`: one `DeleteMessage` call, then the log lines for its
outcome. -/
def deleteMessage (worker : Worker) (c : Collaborators) (receiptHandle : String) : List Event :=
  let params : DeleteMessageInput := { QueueUrl := worker.url, ReceiptHandle := receiptHandle }
  match c.DeleteMessage params with
  | .error err =>
    [.deleteMessage params, .println [.str "deleting"], .println [.str err.Error]]
  | .ok resp => [.deleteMessage params, .println [.deleteOutput resp]]

/-- Go `handleMessage`: one poll cycle.  A panic of `readFromQueue` ends it
before the log line. -/
def handleMessage (worker : Worker) (c : Collaborators) : Run :=
  match readFromQueue worker c with
  | (t, none) => { trace := t, completed := false }
  | (t, some (receiptHandle, payload)) =>
    let t := t ++ [.println [.str "message received: ", .str payload]]
    if receiptHandle != "" then
      if c.handler payload then
        { trace := t ++ [.handlerCall payload, .handlerReturn payload]
                     ++ deleteMessage worker c receiptHandle
          completed := true }
      else
        { trace := t ++ [.handlerCall payload], completed := false }
    else
      { trace := t, completed := true }

/-- Go `StartPolling`, for as many cycles as `cs` describes: each cycle waits
for the interval and runs `handleMessage`; a cycle that does not complete ends
the run (nothing in the loop recovers from a panic). -/
def StartPolling (worker : Worker) : List Collaborators → Run
  | [] => { trace := [], completed := true }
  | c :: cs =>
    let r := handleMessage worker c
    if r.completed then
      let rest := StartPolling worker cs
      { trace := .wait worker.pollingIntervall :: r.trace ++ rest.trace
        completed := rest.completed }
    else
      { trace := .wait worker.pollingIntervall :: r.trace, completed := false }

/-- Go `SendMessage`: the events and the returned `error` (`none` is `nil`). -/
def SendMessage (worker : Worker) (c : Collaborators) (payload : String) :
    List Event × Option Err :=
  let params : SendMessageInput :=
    { QueueUrl := worker.url, DelaySeconds := 1, MessageBody := payload }
  match c.SendMessage params with
  | .error err => ([.sendMessage params], some err)
  | .ok _ => ([.sendMessage params], none)

/-! ## Observations on traces -/

/-- The payloads of the handler calls of a trace, in order. -/
def handlerCalls : List Event → List String
  | [] => []
  | .handlerCall p :: t => p :: handlerCalls t
  | _ :: t => handlerCalls t

/-- The requests of the `DeleteMessage` calls of a trace, in order. -/
def deleteCalls : List Event → List DeleteMessageInput
  | [] => []
  | .deleteMessage d :: t => d :: deleteCalls t
  | _ :: t => deleteCalls t

/-- The requests of the `ReceiveMessage` calls of a trace, in order. -/
def receiveCalls : List Event → List ReceiveMessageInput
  | [] => []
  | .receiveMessage r :: t => r :: receiveCalls t
  | _ :: t => receiveCalls t

/-- The log lines of a trace, in order. -/
def logLines : List Event → List (List LogArg)
  | [] => []
  | .println a :: t => a :: logLines t
  | _ :: t => logLines t

/-- A trace without its log lines: the calls and waits only. -/
def withoutLog : List Event → List Event
  | [] => []
  | .println _ :: t => withoutLog t
  | e :: t => e :: withoutLog t

/-! ## Concrete collaborators used in the examples -/

/-- The worker of `main.go`. -/
def mainWorker : Worker :=
  { url := "https://sqs.eu-central-1.amazonaws.com/502414664542/test-queue-one"
    region := "eu-central-1"
    pollingIntervall := 5000000000 }

/-- Collaborators whose receive call returns `resp`, whose delete and send calls
succeed and whose handler returns. -/
def receiving (resp : Except Err ReceiveMessageOutput) : Collaborators :=
  { ReceiveMessage := fun _ => resp
    DeleteMessage := fun _ => .ok {}
    SendMessage := fun _ => .ok { MessageId := "id-1" }
    handler := fun _ => true }

/-- A cycle in which the queue holds the message `hello` with handle `h1`. -/
def helloCycle : Collaborators :=
  receiving (.ok { Messages := [{ Body := some "hello", ReceiptHandle := some "h1" }] })

/-- A cycle in which the queue is empty. -/
def emptyCycle : Collaborators := receiving (.ok { Messages := [] })

/-- A cycle in which the receive call fails. -/
def failingCycle : Collaborators := receiving (.error { text := "RequestError: send request failed" })

/-- A cycle in which the service returns a message whose receipt handle is the
empty string. -/
def emptyHandleCycle : Collaborators :=
  receiving (.ok { Messages := [{ Body := some "hello", ReceiptHandle := some "" }] })

/-- A cycle in which the service returns a message without a body. -/
def absentBodyCycle : Collaborators :=
  receiving (.ok { Messages := [{ Body := none, ReceiptHandle := some "h1" }] })

/-- A cycle in which the queue holds the message `hello` with handle `h1` and
the `DeleteMessage` call fails. -/
def failingDeleteCycle : Collaborators :=
  { helloCycle with DeleteMessage := fun _ => .error { text := "RequestError: timeout" } }

/-- The collaborators `c`, except that every `DeleteMessage` call fails with `err`. -/
def withFailingDelete (c : Collaborators) (err : Err) : Collaborators :=
  { c with DeleteMessage := fun _ => .error err }

/-- The collaborators `c`, except that every `SendMessage` call fails with `err`. -/
def withFailingSend (c : Collaborators) (err : Err) : Collaborators :=
  { c with SendMessage := fun _ => .error err }

/-- The message a cycle received: the first message of a successful receive
call, if there is one (the request asks for one message). -/
def receivedMessage (worker : Worker) (c : Collaborators) : Option Message :=
  match c.ReceiveMessage (readFromQueueParams worker) with
  | .error _ => none
  | .ok resp => resp.Messages.head?

/-- The body and the receipt handle of the received message, when it carries
both and the receipt handle is not the empty string. -/
def handledMessage (worker : Worker) (c : Collaborators) : Option (String × String) :=
  match receivedMessage worker c with
  | some { Body := some body, ReceiptHandle := some handle } =>
    if handle != "" then some (body, handle) else none
  | _ => none

/-- The `DeleteMessage` request for a body and receipt handle. -/
def deleteRequest (worker : Worker) (m : String × String) : DeleteMessageInput :=
  { QueueUrl := worker.url, ReceiptHandle := m.2 }

/-- Whether the message a cycle received, if any, carries both `Body` and
`ReceiptHandle`. -/
def membersPresent (worker : Worker) (c : Collaborators) : Bool :=
  match receivedMessage worker c with
  | none => true
  | some m => m.Body.isSome && m.ReceiptHandle.isSome

/-! ## Lemmas on the observations -/

theorem handlerCalls_append (s t : List Event) :
    handlerCalls (s ++ t) = handlerCalls s ++ handlerCalls t := by
  induction s with
  | nil => rfl
  | cons e s ih => cases e <;> simp [handlerCalls, ih]

theorem deleteCalls_append (s t : List Event) :
    deleteCalls (s ++ t) = deleteCalls s ++ deleteCalls t := by
  induction s with
  | nil => rfl
  | cons e s ih => cases e <;> simp [deleteCalls, ih]

theorem withoutLog_append (s t : List Event) :
    withoutLog (s ++ t) = withoutLog s ++ withoutLog t := by
  induction s with
  | nil => rfl
  | cons e s ih => cases e <;> simp [withoutLog, ih]

/-- A trace with a single `DeleteMessage` call splits at that call in one way only. -/
theorem split_at_delete_unique (x y pre post : List Event) (d e : DeleteMessageInput)
    (hx : deleteCalls x = []) (hy : deleteCalls y = [])
    (h : x ++ Event.deleteMessage e :: y = pre ++ Event.deleteMessage d :: post) :
    pre = x ∧ d = e ∧ post = y := by
  induction x generalizing pre with
  | nil =>
    cases pre with
    | nil =>
      simp only [List.nil_append, List.cons.injEq, Event.deleteMessage.injEq] at h
      exact ⟨rfl, h.1.symm, h.2.symm⟩
    | cons p pre =>
      simp only [List.nil_append, List.cons_append, List.cons.injEq] at h
      have hy2 := hy
      rw [h.2, deleteCalls_append] at hy2
      simp [deleteCalls] at hy2
  | cons a x ih =>
    cases pre with
    | nil =>
      simp only [List.nil_append, List.cons_append, List.cons.injEq] at h
      rw [h.1] at hx
      simp [deleteCalls] at hx
    | cons p pre =>
      simp only [List.cons_append, List.cons.injEq] at h
      have hx2 : deleteCalls x = [] := by
        cases a <;> simp_all [deleteCalls]
      obtain ⟨h1, h2, h3⟩ := ih pre hx2 h.2
      exact ⟨by rw [h1, h.1], h2, h3⟩

/-! ## What each function does, by outcome of the receive call -/

theorem readFromQueue_error (worker : Worker) (c : Collaborators) (err : Err)
    (hrecv : c.ReceiveMessage (readFromQueueParams worker) = .error err) :
    readFromQueue worker c =
      ([.receiveMessage (readFromQueueParams worker), .println [.str "reading"],
        .println [.str err.Error]], some ("", "")) := by
  simp [readFromQueue, hrecv]

theorem readFromQueue_empty (worker : Worker) (c : Collaborators) (resp : ReceiveMessageOutput)
    (hrecv : c.ReceiveMessage (readFromQueueParams worker) = .ok resp)
    (hempty : resp.Messages = []) :
    readFromQueue worker c = ([.receiveMessage (readFromQueueParams worker)], some ("", "")) := by
  simp [readFromQueue, hrecv, hempty]

theorem readFromQueue_message (worker : Worker) (c : Collaborators) (resp : ReceiveMessageOutput)
    (m : Message) (ms : List Message) (body handle : String)
    (hrecv : c.ReceiveMessage (readFromQueueParams worker) = .ok resp)
    (hmsgs : resp.Messages = m :: ms)
    (hbody : m.Body = some body) (hhandle : m.ReceiptHandle = some handle) :
    readFromQueue worker c =
      ([.receiveMessage (readFromQueueParams worker)], some (handle, body)) := by
  simp [readFromQueue, hrecv, hmsgs, hbody, hhandle]

/-- A first message without `Body` or without `ReceiptHandle`: `readFromQueue`
panics right after the receive call. -/
theorem readFromQueue_absent (worker : Worker) (c : Collaborators) (resp : ReceiveMessageOutput)
    (m : Message) (ms : List Message)
    (hrecv : c.ReceiveMessage (readFromQueueParams worker) = .ok resp)
    (hmsgs : resp.Messages = m :: ms)
    (habsent : m.Body = none ∨ m.ReceiptHandle = none) :
    readFromQueue worker c = ([.receiveMessage (readFromQueueParams worker)], none) := by
  rcases habsent with h | h
  · simp [readFromQueue, hrecv, hmsgs, h]
  · cases hb : m.Body <;> simp [readFromQueue, hrecv, hmsgs, h, hb]

/-- The cycle when `readFromQueue` panics. -/
theorem handleMessage_panicked (worker : Worker) (c : Collaborators) (t : List Event)
    (hread : readFromQueue worker c = (t, none)) :
    handleMessage worker c = { trace := t, completed := false } := by
  simp [handleMessage, hread]

/-- The cycle when `readFromQueue` returns the empty receipt handle. -/
theorem handleMessage_no_handle (worker : Worker) (c : Collaborators) (t : List Event)
    (payload : String) (hread : readFromQueue worker c = (t, some ("", payload))) :
    handleMessage worker c =
      { trace := t ++ [.println [.str "message received: ", .str payload]], completed := true } := by
  simp [handleMessage, hread]

/-- The cycle when `readFromQueue` returns a non-empty receipt handle and the
handler returns. -/
theorem handleMessage_handled (worker : Worker) (c : Collaborators) (t : List Event)
    (receiptHandle payload : String)
    (hread : readFromQueue worker c = (t, some (receiptHandle, payload)))
    (hhandle : receiptHandle ≠ "") (hret : c.handler payload = true) :
    handleMessage worker c =
      { trace := t ++ [.println [.str "message received: ", .str payload]]
                   ++ [.handlerCall payload, .handlerReturn payload]
                   ++ deleteMessage worker c receiptHandle
        completed := true } := by
  simp [handleMessage, hread, hhandle, hret]

/-- The cycle when `readFromQueue` returns a non-empty receipt handle and the
handler does not return. -/
theorem handleMessage_aborted (worker : Worker) (c : Collaborators) (t : List Event)
    (receiptHandle payload : String)
    (hread : readFromQueue worker c = (t, some (receiptHandle, payload)))
    (hhandle : receiptHandle ≠ "") (hret : c.handler payload = false) :
    handleMessage worker c =
      { trace := t ++ [.println [.str "message received: ", .str payload]]
                   ++ [.handlerCall payload]
        completed := false } := by
  simp [handleMessage, hread, hhandle, hret]

/-- The events of `deleteMessage`: the call, then log lines only. -/
theorem deleteMessage_shape (worker : Worker) (c : Collaborators) (receiptHandle : String) :
    ∃ logs, deleteMessage worker c receiptHandle =
        .deleteMessage { QueueUrl := worker.url, ReceiptHandle := receiptHandle } :: logs ∧
      withoutLog logs = [] ∧ deleteCalls logs = [] ∧ handlerCalls logs = [] := by
  cases h : c.DeleteMessage { QueueUrl := worker.url, ReceiptHandle := receiptHandle } <;>
    simp [deleteMessage, h, withoutLog, deleteCalls, handlerCalls]

theorem deleteMessage_error (worker : Worker) (c : Collaborators) (receiptHandle : String)
    (err : Err)
    (hdel : c.DeleteMessage { QueueUrl := worker.url, ReceiptHandle := receiptHandle }
      = .error err) :
    deleteMessage worker c receiptHandle =
      [.deleteMessage { QueueUrl := worker.url, ReceiptHandle := receiptHandle },
       .println [.str "deleting"], .println [.str err.Error]] := by
  simp [deleteMessage, hdel]

theorem deleteMessage_ok (worker : Worker) (c : Collaborators) (receiptHandle : String)
    (out : DeleteMessageOutput)
    (hdel : c.DeleteMessage { QueueUrl := worker.url, ReceiptHandle := receiptHandle }
      = .ok out) :
    deleteMessage worker c receiptHandle =
      [.deleteMessage { QueueUrl := worker.url, ReceiptHandle := receiptHandle },
       .println [.deleteOutput out]] := by
  simp [deleteMessage, hdel]

/-- The events of `readFromQueue`: the receive call, then log lines only. -/
theorem readFromQueue_shape (worker : Worker) (c : Collaborators) :
    ∃ logs, (readFromQueue worker c).1 = .receiveMessage (readFromQueueParams worker) :: logs ∧
      withoutLog logs = [] ∧ deleteCalls logs = [] ∧ handlerCalls logs = [] := by
  cases h : c.ReceiveMessage (readFromQueueParams worker) with
  | error err => simp [readFromQueue, h, withoutLog, deleteCalls, handlerCalls]
  | ok resp =>
    cases hm : resp.Messages with
    | nil => simp [readFromQueue, h, hm, withoutLog, deleteCalls, handlerCalls]
    | cons m ms =>
      cases hb : m.Body <;> cases hh : m.ReceiptHandle <;>
        simp [readFromQueue, h, hm, hb, hh, withoutLog, deleteCalls, handlerCalls]

/-- The six ways a poll cycle can go, by what the collaborators answer. -/
theorem handleMessage_cases (worker : Worker) (c : Collaborators) :
    (∃ err, c.ReceiveMessage (readFromQueueParams worker) = .error err ∧
      handleMessage worker c =
        { trace := [.receiveMessage (readFromQueueParams worker),
                    .println [.str "reading"], .println [.str err.Error],
                    .println [.str "message received: ", .str ""]]
          completed := true }) ∨
    (∃ resp, c.ReceiveMessage (readFromQueueParams worker) = .ok resp ∧ resp.Messages = [] ∧
      handleMessage worker c =
        { trace := [.receiveMessage (readFromQueueParams worker),
                    .println [.str "message received: ", .str ""]]
          completed := true }) ∨
    (∃ resp m ms, c.ReceiveMessage (readFromQueueParams worker) = .ok resp ∧
      resp.Messages = m :: ms ∧ (m.Body = none ∨ m.ReceiptHandle = none) ∧
      handleMessage worker c =
        { trace := [.receiveMessage (readFromQueueParams worker)], completed := false }) ∨
    (∃ resp m ms body, c.ReceiveMessage (readFromQueueParams worker) = .ok resp ∧
      resp.Messages = m :: ms ∧ m.Body = some body ∧ m.ReceiptHandle = some "" ∧
      handleMessage worker c =
        { trace := [.receiveMessage (readFromQueueParams worker),
                    .println [.str "message received: ", .str body]]
          completed := true }) ∨
    (∃ resp m ms body handle, c.ReceiveMessage (readFromQueueParams worker) = .ok resp ∧
      resp.Messages = m :: ms ∧ m.Body = some body ∧ m.ReceiptHandle = some handle ∧
      handle ≠ "" ∧ c.handler body = false ∧
      handleMessage worker c =
        { trace := [.receiveMessage (readFromQueueParams worker),
                    .println [.str "message received: ", .str body],
                    .handlerCall body]
          completed := false }) ∨
    (∃ resp m ms body handle, c.ReceiveMessage (readFromQueueParams worker) = .ok resp ∧
      resp.Messages = m :: ms ∧ m.Body = some body ∧ m.ReceiptHandle = some handle ∧
      handle ≠ "" ∧ c.handler body = true ∧
      handleMessage worker c =
        { trace := [.receiveMessage (readFromQueueParams worker),
                    .println [.str "message received: ", .str body],
                    .handlerCall body, .handlerReturn body]
                    ++ deleteMessage worker c handle
          completed := true }) := by
  cases hrecv : c.ReceiveMessage (readFromQueueParams worker) with
  | error err =>
    left
    exact ⟨err, rfl, by
      rw [handleMessage_no_handle worker c _ _ (readFromQueue_error worker c err hrecv)]; rfl⟩
  | ok resp =>
    right
    cases hmsgs : resp.Messages with
    | nil =>
      left
      exact ⟨resp, rfl, hmsgs, by
        rw [handleMessage_no_handle worker c _ _ (readFromQueue_empty worker c resp hrecv hmsgs)]
        rfl⟩
    | cons m ms =>
      right
      cases hbody : m.Body with
      | none =>
        left
        exact ⟨resp, m, ms, rfl, hmsgs, Or.inl hbody,
          handleMessage_panicked worker c _
            (readFromQueue_absent worker c resp m ms hrecv hmsgs (Or.inl hbody))⟩
      | some body =>
        cases hhandle : m.ReceiptHandle with
        | none =>
          left
          exact ⟨resp, m, ms, rfl, hmsgs, Or.inr hhandle,
            handleMessage_panicked worker c _
              (readFromQueue_absent worker c resp m ms hrecv hmsgs (Or.inr hhandle))⟩
        | some handle =>
          right
          have hread := readFromQueue_message worker c resp m ms body handle hrecv hmsgs
            hbody hhandle
          by_cases hne : handle = ""
          · left
            subst hne
            exact ⟨resp, m, ms, body, rfl, hmsgs, hbody, hhandle, by
              rw [handleMessage_no_handle worker c _ _ hread]; rfl⟩
          · right
            cases hret : c.handler body with
            | false =>
              left
              exact ⟨resp, m, ms, body, handle, rfl, hmsgs, hbody, hhandle, hne, hret, by
                rw [handleMessage_aborted worker c _ _ _ hread hne hret]; rfl⟩
            | true =>
              right
              exact ⟨resp, m, ms, body, handle, rfl, hmsgs, hbody, hhandle, hne, hret, by
                rw [handleMessage_handled worker c _ _ _ hread hne hret]; rfl⟩

/-! ## The poll cycle when nothing was received -/

/-- C3: when the receive call succeeds and returns no messages, `readFromQueue`
returns the empty receipt handle (with the empty payload), and the cycle is the
receive call followed by the "message received: " log line: it makes no handler
call and no `DeleteMessage` call, and it completes. -/
theorem C3_empty_receive_no_handler_no_delete (worker : Worker) (c : Collaborators)
    (resp : ReceiveMessageOutput)
    (hrecv : c.ReceiveMessage (readFromQueueParams worker) = .ok resp)
    (hempty : resp.Messages = []) :
    (readFromQueue worker c).2 = some ("", "") ∧
    (handleMessage worker c).trace =
      [.receiveMessage (readFromQueueParams worker),
       .println [.str "message received: ", .str ""]] ∧
    handlerCalls (handleMessage worker c).trace = [] ∧
    deleteCalls (handleMessage worker c).trace = [] ∧
    (handleMessage worker c).completed = true := by
  have hread := readFromQueue_empty worker c resp hrecv hempty
  rw [handleMessage_no_handle worker c _ _ hread, hread]
  simp [handlerCalls, deleteCalls]

theorem C3_empty_receive_no_handler_no_delete_witness :
    (readFromQueue mainWorker emptyCycle).2 = some ("", "") ∧
    (handleMessage mainWorker emptyCycle).trace =
      [.receiveMessage (readFromQueueParams mainWorker),
       .println [.str "message received: ", .str ""]] ∧
    handlerCalls (handleMessage mainWorker emptyCycle).trace = [] ∧
    deleteCalls (handleMessage mainWorker emptyCycle).trace = [] ∧
    (handleMessage mainWorker emptyCycle).completed = true :=
  C3_empty_receive_no_handler_no_delete mainWorker emptyCycle { Messages := [] } rfl rfl

/-- C4: when the receive call returns an error, the cycle logs "reading" and the
error text, then the "message received: " line, calls neither the handler nor
`DeleteMessage`, and completes; `StartPolling` then goes on with the interval
wait of the next cycle. -/
theorem C4_receive_error_logged_cycle_completes (worker : Worker) (c : Collaborators)
    (err : Err) (hrecv : c.ReceiveMessage (readFromQueueParams worker) = .error err) :
    (handleMessage worker c).trace =
      [.receiveMessage (readFromQueueParams worker),
       .println [.str "reading"], .println [.str err.Error],
       .println [.str "message received: ", .str ""]] ∧
    handlerCalls (handleMessage worker c).trace = [] ∧
    deleteCalls (handleMessage worker c).trace = [] ∧
    (handleMessage worker c).completed = true ∧
    (∀ next rest, (StartPolling worker (c :: next :: rest)).trace =
      .wait worker.pollingIntervall :: (handleMessage worker c).trace
        ++ .wait worker.pollingIntervall :: (handleMessage worker next).trace
        ++ (if (handleMessage worker next).completed then (StartPolling worker rest).trace
            else [])) := by
  have hread := readFromQueue_error worker c err hrecv
  have hcycle := handleMessage_no_handle worker c _ _ hread
  refine ⟨?_, ?_, ?_, ?_, ?_⟩
  · rw [hcycle]; rfl
  · rw [hcycle]; rfl
  · rw [hcycle]; rfl
  · rw [hcycle]
  · intro next rest
    simp only [StartPolling, hcycle]
    cases (handleMessage worker next).completed <;> simp

theorem C4_receive_error_logged_cycle_completes_witness :
    (handleMessage mainWorker failingCycle).trace =
      [.receiveMessage (readFromQueueParams mainWorker),
       .println [.str "reading"], .println [.str "RequestError: send request failed"],
       .println [.str "message received: ", .str ""]] ∧
    (handleMessage mainWorker failingCycle).completed = true :=
  have h := C4_receive_error_logged_cycle_completes mainWorker failingCycle
    { text := "RequestError: send request failed" } rfl
  ⟨h.1, h.2.2.2.1⟩

/-! ## The requests the worker builds -/

/-- C8: `SendMessage payload` makes one `SendMessage` call and nothing else; the
request carries the worker's url, the payload unchanged and a delay of 1 second
(not zero); the function returns the error of the call, and `nil` exactly when
the call succeeded. -/
theorem C8_SendMessage_one_request_error_returned (worker : Worker) (c : Collaborators)
    (payload : String) :
    (SendMessage worker c payload).1 =
      [.sendMessage { QueueUrl := worker.url, DelaySeconds := 1, MessageBody := payload }] ∧
    (∀ params, Event.sendMessage params ∈ (SendMessage worker c payload).1 →
      params.QueueUrl = worker.url ∧ params.MessageBody = payload ∧
      params.DelaySeconds = 1 ∧ params.DelaySeconds ≠ 0) ∧
    (∀ err, c.SendMessage { QueueUrl := worker.url, DelaySeconds := 1, MessageBody := payload }
        = .error err → (SendMessage worker c payload).2 = some err) ∧
    ((SendMessage worker c payload).2 = none ↔
      ∃ out, c.SendMessage { QueueUrl := worker.url, DelaySeconds := 1, MessageBody := payload }
        = .ok out) ∧
    handlerCalls (SendMessage worker c payload).1 = [] ∧
    receiveCalls (SendMessage worker c payload).1 = [] ∧
    deleteCalls (SendMessage worker c payload).1 = [] := by
  cases h : c.SendMessage { QueueUrl := worker.url, DelaySeconds := 1, MessageBody := payload } <;>
    simp [SendMessage, h, handlerCalls, receiveCalls, deleteCalls]

theorem C8_SendMessage_one_request_error_returned_witness :
    (SendMessage mainWorker (withFailingSend helloCycle { text := "AccessDenied" }) "job-42").1 =
      [.sendMessage { QueueUrl := mainWorker.url, DelaySeconds := 1, MessageBody := "job-42" }] ∧
    (SendMessage mainWorker (withFailingSend helloCycle { text := "AccessDenied" }) "job-42").2 =
      some { text := "AccessDenied" } :=
  have h := C8_SendMessage_one_request_error_returned mainWorker
    (withFailingSend helloCycle { text := "AccessDenied" }) "job-42"
  ⟨h.1, h.2.2.1 { text := "AccessDenied" } rfl⟩

/-- C9: the receive request of `readFromQueue` targets the worker's url, asks
for one message, sets visibility timeout 1 and wait time 1 and selects "All"
message attributes, but its `AttributeNames` list is `["QueueAttributeName"]`,
not `["All"]`. -/
theorem C9_receive_request_fields (worker : Worker) (c : Collaborators) :
    receiveCalls (readFromQueue worker c).1 = [readFromQueueParams worker] ∧
    (readFromQueueParams worker).QueueUrl = worker.url ∧
    (readFromQueueParams worker).MaxNumberOfMessages = 1 ∧
    (readFromQueueParams worker).VisibilityTimeout = 1 ∧
    (readFromQueueParams worker).WaitTimeSeconds = 1 ∧
    (readFromQueueParams worker).MessageAttributeNames = ["All"] ∧
    (readFromQueueParams worker).AttributeNames = ["QueueAttributeName"] ∧
    (readFromQueueParams worker).AttributeNames ≠ ["All"] := by
  refine ⟨?_, rfl, rfl, rfl, rfl, rfl, rfl, by simp [readFromQueueParams]⟩
  cases h : c.ReceiveMessage (readFromQueueParams worker) with
  | error err => simp [readFromQueue, h, receiveCalls]
  | ok resp =>
    cases hm : resp.Messages with
    | nil => simp [readFromQueue, h, hm, receiveCalls]
    | cons m ms =>
      cases hb : m.Body <;> cases hh : m.ReceiptHandle <;>
        simp [readFromQueue, h, hm, hb, hh, receiveCalls]

/-! ## Failures of the receive call -/

/-- C5, as stated, fails: a failing receive call and a successful receive call
with zero messages make `readFromQueue` return the same result. -/
theorem C5_counterexample_same_result :
    failingCycle.ReceiveMessage (readFromQueueParams mainWorker)
      = .error { text := "RequestError: send request failed" } ∧
    emptyCycle.ReceiveMessage (readFromQueueParams mainWorker) = .ok { Messages := [] } ∧
    (readFromQueue mainWorker failingCycle).2 = (readFromQueue mainWorker emptyCycle).2 :=
  ⟨rfl, rfl, by decide⟩

/-- C5, amended: for every failing receive call and every successful receive
call with zero messages, `readFromQueue` hands its caller the same result, the
empty receipt handle and the empty payload; the failure shows only in the two
log lines "reading" and the error text that `readFromQueue` writes itself, and
`handleMessage` goes on in the same way in both cases: the "message received: "
line with the empty payload and nothing else. -/
theorem C5_failure_and_empty_give_same_result (worker : Worker) (cFail cEmpty : Collaborators)
    (err : Err) (resp : ReceiveMessageOutput)
    (hfail : cFail.ReceiveMessage (readFromQueueParams worker) = .error err)
    (hrecv : cEmpty.ReceiveMessage (readFromQueueParams worker) = .ok resp)
    (hempty : resp.Messages = []) :
    (readFromQueue worker cFail).2 = some ("", "") ∧
    (readFromQueue worker cEmpty).2 = some ("", "") ∧
    logLines (readFromQueue worker cFail).1 = [[.str "reading"], [.str err.Error]] ∧
    logLines (readFromQueue worker cEmpty).1 = [] ∧
    (handleMessage worker cFail).trace =
      (readFromQueue worker cFail).1 ++ [.println [.str "message received: ", .str ""]] ∧
    (handleMessage worker cEmpty).trace =
      (readFromQueue worker cEmpty).1 ++ [.println [.str "message received: ", .str ""]] ∧
    withoutLog (handleMessage worker cFail).trace =
      withoutLog (handleMessage worker cEmpty).trace := by
  have h1 := readFromQueue_error worker cFail err hfail
  have h2 := readFromQueue_empty worker cEmpty resp hrecv hempty
  rw [handleMessage_no_handle worker cFail _ _ h1, handleMessage_no_handle worker cEmpty _ _ h2,
    h1, h2]
  simp [logLines, withoutLog]

theorem C5_failure_and_empty_give_same_result_witness :
    (readFromQueue mainWorker failingCycle).2 = some ("", "") ∧
    (readFromQueue mainWorker emptyCycle).2 = some ("", "") :=
  have h := C5_failure_and_empty_give_same_result mainWorker failingCycle emptyCycle
    { text := "RequestError: send request failed" } { Messages := [] } rfl rfl rfl
  ⟨h.1, h.2.1⟩

/-! ## Receive, handle, delete -/

/-- A cycle whose trace holds a `DeleteMessage` call: it received a message with
both members and a non-empty receipt handle, the handler returned, the call is
the first event of `deleteMessage` for that handle, and the four events before
it are the receive call, the log line and the handler call and return. -/
theorem handleMessage_split_at_delete (worker : Worker) (c : Collaborators)
    (pre post : List Event) (d : DeleteMessageInput)
    (hsplit : (handleMessage worker c).trace = pre ++ .deleteMessage d :: post) :
    ∃ resp m ms body handle,
      c.ReceiveMessage (readFromQueueParams worker) = .ok resp ∧
      resp.Messages = m :: ms ∧ m.Body = some body ∧ m.ReceiptHandle = some handle ∧
      handle ≠ "" ∧ c.handler body = true ∧
      d = { QueueUrl := worker.url, ReceiptHandle := handle } ∧
      pre = [.receiveMessage (readFromQueueParams worker),
             .println [.str "message received: ", .str body],
             .handlerCall body, .handlerReturn body] ∧
      .deleteMessage d :: post = deleteMessage worker c handle ∧
      deleteCalls post = [] ∧
      (handleMessage worker c).completed = true := by
  have hcalls := congrArg deleteCalls hsplit
  rw [deleteCalls_append] at hcalls
  rcases handleMessage_cases worker c with
    ⟨err, -, h⟩ | ⟨resp, -, -, h⟩ | ⟨resp, m, ms, -, -, -, h⟩ | ⟨resp, m, ms, body, -, -, -, -, h⟩ |
    ⟨resp, m, ms, body, handle, -, -, -, -, -, -, h⟩ |
    ⟨resp, m, ms, body, handle, hrecv, hmsgs, hbody, hhandle, hne, hret, h⟩
  · rw [h] at hcalls; simp [deleteCalls] at hcalls
  · rw [h] at hcalls; simp [deleteCalls] at hcalls
  · rw [h] at hcalls; simp [deleteCalls] at hcalls
  · rw [h] at hcalls; simp [deleteCalls] at hcalls
  · rw [h] at hcalls; simp [deleteCalls] at hcalls
  · obtain ⟨logs, hshape, -, hlogs, -⟩ := deleteMessage_shape worker c handle
    rw [h] at hsplit
    simp only at hsplit
    rw [hshape] at hsplit
    have hx : deleteCalls [Event.receiveMessage (readFromQueueParams worker),
        Event.println [LogArg.str "message received: ", LogArg.str body],
        Event.handlerCall body, Event.handlerReturn body] = [] := rfl
    obtain ⟨hpre, hd, hpost⟩ := split_at_delete_unique _ _ _ _ _ _ hx hlogs hsplit
    refine ⟨resp, m, ms, body, handle, hrecv, hmsgs, hbody, hhandle, hne, hret, hd, hpre, ?_,
      ?_, ?_⟩
    · rw [hshape, hd, hpost]
    · rw [hpost]; exact hlogs
    · rw [h]

/-- C1: in the trace of one poll cycle, whatever the receive call and the
handler do, a `DeleteMessage` call is the call for the receipt handle of the
message received in this cycle, and it comes right after the handler call for
that message's body has returned; no other `DeleteMessage` call is in the
cycle, before or after. -/
theorem C1_delete_only_after_handler_returned (worker : Worker) (c : Collaborators)
    (pre post : List Event) (d : DeleteMessageInput)
    (hsplit : (handleMessage worker c).trace = pre ++ .deleteMessage d :: post) :
    ∃ resp m ms body handle before,
      c.ReceiveMessage (readFromQueueParams worker) = .ok resp ∧
      resp.Messages = m :: ms ∧
      m.Body = some body ∧ m.ReceiptHandle = some handle ∧
      d = { QueueUrl := worker.url, ReceiptHandle := handle } ∧
      c.handler body = true ∧
      pre = before ++ [.handlerCall body, .handlerReturn body] ∧
      deleteCalls pre = [] ∧ deleteCalls post = [] := by
  obtain ⟨resp, m, ms, body, handle, hrecv, hmsgs, hbody, hhandle, -, hret, hd, hpre, -, hpost, -⟩ :=
    handleMessage_split_at_delete worker c pre post d hsplit
  refine ⟨resp, m, ms, body, handle, [.receiveMessage (readFromQueueParams worker),
    .println [.str "message received: ", .str body]], hrecv, hmsgs, hbody, hhandle, hd, hret,
    ?_, ?_, hpost⟩
  · rw [hpre]; rfl
  · rw [hpre]; rfl

theorem C1_delete_only_after_handler_returned_witness :
    ∃ resp m ms body handle before,
      helloCycle.ReceiveMessage (readFromQueueParams mainWorker) = .ok resp ∧
      resp.Messages = m :: ms ∧
      m.Body = some body ∧ m.ReceiptHandle = some handle ∧
      ({ QueueUrl := mainWorker.url, ReceiptHandle := "h1" } : DeleteMessageInput)
        = { QueueUrl := mainWorker.url, ReceiptHandle := handle } ∧
      helloCycle.handler body = true ∧
      ([.receiveMessage (readFromQueueParams mainWorker),
       .println [.str "message received: ", .str "hello"],
       .handlerCall "hello", .handlerReturn "hello"] : List Event)
        = before ++ [.handlerCall body, .handlerReturn body] ∧
      deleteCalls [.receiveMessage (readFromQueueParams mainWorker),
       .println [.str "message received: ", .str "hello"],
       .handlerCall "hello", .handlerReturn "hello"] = [] ∧
      deleteCalls [.println [.deleteOutput {}]] = [] :=
  C1_delete_only_after_handler_returned mainWorker helloCycle
    [.receiveMessage (readFromQueueParams mainWorker),
     .println [.str "message received: ", .str "hello"],
     .handlerCall "hello", .handlerReturn "hello"]
    [.println [.deleteOutput {}]]
    { QueueUrl := mainWorker.url, ReceiptHandle := "h1" } (by decide)

/-- C2, as stated, fails: a message with the empty receipt handle is returned by
a successful receive call, and the cycle calls neither the handler nor
`DeleteMessage`. -/
theorem C2_counterexample_empty_receipt_handle :
    emptyHandleCycle.ReceiveMessage (readFromQueueParams mainWorker)
      = .ok { Messages := [{ Body := some "hello", ReceiptHandle := some "" }] } ∧
    emptyHandleCycle.handler "hello" = true ∧
    handlerCalls (handleMessage mainWorker emptyHandleCycle).trace = [] ∧
    deleteCalls (handleMessage mainWorker emptyHandleCycle).trace = [] :=
  ⟨rfl, rfl, by decide, by decide⟩

/-- C2, amended: for the first message `m` of a successful receive call,
(1) when it carries a body and a receipt handle that is not the empty string
and the handler returns, the cycle is the receive call, the "message received: "
log line, the handler call with the body and its return, the `DeleteMessage`
call with the worker's url and the receipt handle, and the log lines of the
delete outcome: the handler is called exactly once, `DeleteMessage` exactly
once, and the cycle completes;
(2) when its receipt handle is the empty string, whatever the body, the cycle
is the receive call and the log line only: no handler call, no `DeleteMessage`
call;
(3) when the handler does not return, the cycle ends at the handler call and
makes no `DeleteMessage` call;
(4) when the body or the receipt handle is absent, the cycle ends at the
receive call, with no handler call and no `DeleteMessage` call. -/
theorem C2_handler_once_then_delete_once (worker : Worker) (c : Collaborators)
    (resp : ReceiveMessageOutput) (m : Message) (ms : List Message)
    (hrecv : c.ReceiveMessage (readFromQueueParams worker) = .ok resp)
    (hmsgs : resp.Messages = m :: ms) :
    (∀ body handle, m.Body = some body → m.ReceiptHandle = some handle → handle ≠ "" →
      c.handler body = true →
      (∀ err, c.DeleteMessage { QueueUrl := worker.url, ReceiptHandle := handle } = .error err →
        (handleMessage worker c).trace =
          [.receiveMessage (readFromQueueParams worker),
           .println [.str "message received: ", .str body],
           .handlerCall body, .handlerReturn body,
           .deleteMessage { QueueUrl := worker.url, ReceiptHandle := handle },
           .println [.str "deleting"], .println [.str err.Error]]) ∧
      (∀ out, c.DeleteMessage { QueueUrl := worker.url, ReceiptHandle := handle } = .ok out →
        (handleMessage worker c).trace =
          [.receiveMessage (readFromQueueParams worker),
           .println [.str "message received: ", .str body],
           .handlerCall body, .handlerReturn body,
           .deleteMessage { QueueUrl := worker.url, ReceiptHandle := handle },
           .println [.deleteOutput out]]) ∧
      handlerCalls (handleMessage worker c).trace = [body] ∧
      deleteCalls (handleMessage worker c).trace =
        [{ QueueUrl := worker.url, ReceiptHandle := handle }] ∧
      (handleMessage worker c).completed = true) ∧
    (∀ body, m.Body = some body → m.ReceiptHandle = some "" →
      (handleMessage worker c).trace =
        [.receiveMessage (readFromQueueParams worker),
         .println [.str "message received: ", .str body]] ∧
      handlerCalls (handleMessage worker c).trace = [] ∧
      deleteCalls (handleMessage worker c).trace = [] ∧
      (handleMessage worker c).completed = true) ∧
    (∀ body handle, m.Body = some body → m.ReceiptHandle = some handle → handle ≠ "" →
      c.handler body = false →
      (handleMessage worker c).trace =
        [.receiveMessage (readFromQueueParams worker),
         .println [.str "message received: ", .str body],
         .handlerCall body] ∧
      deleteCalls (handleMessage worker c).trace = [] ∧
      (handleMessage worker c).completed = false) ∧
    ((m.Body = none ∨ m.ReceiptHandle = none) →
      (handleMessage worker c).trace = [.receiveMessage (readFromQueueParams worker)] ∧
      handlerCalls (handleMessage worker c).trace = [] ∧
      deleteCalls (handleMessage worker c).trace = [] ∧
      (handleMessage worker c).completed = false) := by
  refine ⟨?_, ?_, ?_, ?_⟩
  · intro body handle hbody hhandle hne hret
    have hread := readFromQueue_message worker c resp m ms body handle hrecv hmsgs hbody hhandle
    obtain ⟨logs, hshape, -, hdel, hcall⟩ := deleteMessage_shape worker c handle
    rw [handleMessage_handled worker c _ _ _ hread hne hret]
    refine ⟨?_, ?_, ?_, ?_, rfl⟩
    · intro err herr
      simp [deleteMessage_error worker c handle err herr]
    · intro out hout
      simp [deleteMessage_ok worker c handle out hout]
    · simp [hshape, handlerCalls_append, handlerCalls, hcall]
    · simp [hshape, deleteCalls_append, deleteCalls, hdel]
  · intro body hbody hhandle
    have hread := readFromQueue_message worker c resp m ms body "" hrecv hmsgs hbody hhandle
    rw [handleMessage_no_handle worker c _ _ hread]
    simp [handlerCalls, deleteCalls]
  · intro body handle hbody hhandle hne hret
    have hread := readFromQueue_message worker c resp m ms body handle hrecv hmsgs hbody hhandle
    rw [handleMessage_aborted worker c _ _ _ hread hne hret]
    simp [deleteCalls]
  · intro habsent
    rw [handleMessage_panicked worker c _
      (readFromQueue_absent worker c resp m ms hrecv hmsgs habsent)]
    simp [handlerCalls, deleteCalls]

theorem C2_handler_once_then_delete_once_witness :
    (handleMessage mainWorker helloCycle).trace =
      [.receiveMessage (readFromQueueParams mainWorker),
       .println [.str "message received: ", .str "hello"],
       .handlerCall "hello", .handlerReturn "hello",
       .deleteMessage { QueueUrl := mainWorker.url, ReceiptHandle := "h1" },
       .println [.deleteOutput {}]] ∧
    handlerCalls (handleMessage mainWorker helloCycle).trace = ["hello"] ∧
    deleteCalls (handleMessage mainWorker helloCycle).trace =
      [{ QueueUrl := mainWorker.url, ReceiptHandle := "h1" }] ∧
    (handleMessage mainWorker helloCycle).completed = true :=
  have h := (C2_handler_once_then_delete_once mainWorker helloCycle
    { Messages := [{ Body := some "hello", ReceiptHandle := some "h1" }] }
    { Body := some "hello", ReceiptHandle := some "h1" } [] rfl rfl).1
    "hello" "h1" rfl rfl (by decide) rfl
  ⟨h.2.1 {} rfl, h.2.2⟩

/-! ## Failure of the delete call -/

/-- C6: a cycle makes at most one `DeleteMessage` call, whatever the
collaborators do.  When the call of a cycle fails, the two log lines "deleting"
and the error text follow it, nothing else follows and the cycle completes; for
a received message with a non-empty receipt handle and a handler that returns
the whole cycle is then: receive call, "message received: " line, handler call
and return, the one `DeleteMessage` call, "deleting", the error text.  A cycle
whose delete fails has the same calls in the same order as the cycle with any
other delete outcome, and the same completion: only log lines differ. -/
theorem C6_delete_error_logged_no_retry (worker : Worker) (c : Collaborators) :
    (deleteCalls (handleMessage worker c).trace).length ≤ 1 ∧
    (∀ pre d post err, (handleMessage worker c).trace = pre ++ .deleteMessage d :: post →
      c.DeleteMessage d = .error err →
      post = [.println [.str "deleting"], .println [.str err.Error]] ∧
      deleteCalls pre = [] ∧
      (handleMessage worker c).completed = true) ∧
    (∀ resp m ms body handle err,
      c.ReceiveMessage (readFromQueueParams worker) = .ok resp → resp.Messages = m :: ms →
      m.Body = some body → m.ReceiptHandle = some handle → handle ≠ "" →
      c.handler body = true →
      c.DeleteMessage { QueueUrl := worker.url, ReceiptHandle := handle } = .error err →
      (handleMessage worker c).trace =
        [.receiveMessage (readFromQueueParams worker),
         .println [.str "message received: ", .str body],
         .handlerCall body, .handlerReturn body,
         .deleteMessage { QueueUrl := worker.url, ReceiptHandle := handle },
         .println [.str "deleting"], .println [.str err.Error]] ∧
      (handleMessage worker c).completed = true) ∧
    (∀ err, withoutLog (handleMessage worker (withFailingDelete c err)).trace =
        withoutLog (handleMessage worker c).trace ∧
      (handleMessage worker (withFailingDelete c err)).completed =
        (handleMessage worker c).completed) := by
  refine ⟨?_, ?_, ?_, ?_⟩
  · rcases handleMessage_cases worker c with
      ⟨err, -, h⟩ | ⟨resp, -, -, h⟩ | ⟨resp, m, ms, -, -, -, h⟩ |
      ⟨resp, m, ms, body, -, -, -, -, h⟩ | ⟨resp, m, ms, body, handle, -, -, -, -, -, -, h⟩ |
      ⟨resp, m, ms, body, handle, -, -, -, -, -, -, h⟩
    · rw [h]; simp [deleteCalls]
    · rw [h]; simp [deleteCalls]
    · rw [h]; simp [deleteCalls]
    · rw [h]; simp [deleteCalls]
    · rw [h]; simp [deleteCalls]
    · obtain ⟨logs, hshape, -, hlogs, -⟩ := deleteMessage_shape worker c handle
      rw [h]
      simp [hshape, deleteCalls, hlogs]
  · intro pre d post err hsplit herr
    obtain ⟨resp, m, ms, body, handle, -, -, -, -, -, -, hd, hpre, hdel, -, hdone⟩ :=
      handleMessage_split_at_delete worker c pre post d hsplit
    subst hd
    rw [deleteMessage_error worker c handle err herr] at hdel
    simp only [List.cons.injEq, true_and] at hdel
    exact ⟨hdel, by rw [hpre]; rfl, hdone⟩
  · intro resp m ms body handle err hrecv hmsgs hbody hhandle hne hret herr
    have hread := readFromQueue_message worker c resp m ms body handle hrecv hmsgs hbody hhandle
    rw [handleMessage_handled worker c _ _ _ hread hne hret,
      deleteMessage_error worker c handle err herr]
    exact ⟨rfl, rfl⟩
  · intro err
    have hreadF : readFromQueue worker (withFailingDelete c err) = readFromQueue worker c := rfl
    have hdelF : ∀ receiptHandle, deleteMessage worker (withFailingDelete c err) receiptHandle =
        [.deleteMessage { QueueUrl := worker.url, ReceiptHandle := receiptHandle },
         .println [.str "deleting"], .println [.str err.Error]] := fun _ => rfl
    rcases hread : readFromQueue worker c with ⟨t, _ | ⟨receiptHandle, payload⟩⟩
    · rw [hread] at hreadF
      rw [handleMessage_panicked worker c _ hread, handleMessage_panicked worker _ _ hreadF]
      exact ⟨rfl, rfl⟩
    · rw [hread] at hreadF
      by_cases hhandle : receiptHandle = ""
      · subst hhandle
        rw [handleMessage_no_handle worker c _ _ hread,
          handleMessage_no_handle worker _ _ _ hreadF]
        exact ⟨rfl, rfl⟩
      · cases hret : c.handler payload with
        | false =>
          rw [handleMessage_aborted worker c _ _ _ hread hhandle hret,
            handleMessage_aborted worker _ _ _ _ hreadF hhandle hret]
          exact ⟨rfl, rfl⟩
        | true =>
          obtain ⟨logs, hshape, hlog, -, -⟩ := deleteMessage_shape worker c receiptHandle
          rw [handleMessage_handled worker c _ _ _ hread hhandle hret,
            handleMessage_handled worker _ _ _ _ hreadF hhandle hret, hdelF, hshape]
          simp [withoutLog_append, withoutLog, hlog]

theorem C6_delete_error_logged_no_retry_witness :
    failingDeleteCycle.DeleteMessage { QueueUrl := mainWorker.url, ReceiptHandle := "h1" }
      = .error { text := "RequestError: timeout" } ∧
    (handleMessage mainWorker failingDeleteCycle).trace =
      [.receiveMessage (readFromQueueParams mainWorker),
       .println [.str "message received: ", .str "hello"],
       .handlerCall "hello", .handlerReturn "hello",
       .deleteMessage { QueueUrl := mainWorker.url, ReceiptHandle := "h1" },
       .println [.str "deleting"], .println [.str "RequestError: timeout"]] ∧
    (handleMessage mainWorker failingDeleteCycle).completed = true :=
  ⟨rfl, (C6_delete_error_logged_no_retry mainWorker failingDeleteCycle).2.2.1
    { Messages := [{ Body := some "hello", ReceiptHandle := some "h1" }] }
    { Body := some "hello", ReceiptHandle := some "h1" } [] "hello" "h1"
    { text := "RequestError: timeout" } rfl rfl rfl rfl (by decide) rfl rfl⟩

/-! ## The "message received: " log line -/

/-- C10, as stated, fails: in a cycle whose received message has no body,
`readFromQueue` panics and the cycle ends after the receive call, without the
"message received: " log line. -/
theorem C10_counterexample_absent_body :
    absentBodyCycle.ReceiveMessage (readFromQueueParams mainWorker)
      = .ok { Messages := [{ Body := none, ReceiptHandle := some "h1" }] } ∧
    (handleMessage mainWorker absentBodyCycle).trace =
      [.receiveMessage (readFromQueueParams mainWorker)] ∧
    logLines (handleMessage mainWorker absentBodyCycle).trace = [] ∧
    (handleMessage mainWorker absentBodyCycle).completed = false :=
  ⟨rfl, by decide, by decide, by decide⟩

/-- C10, amended: `readFromQueue` returns in every cycle except one whose first
received message lacks `Body` or `ReceiptHandle`; there it panics and the cycle
is the receive call only.  In every cycle in which `readFromQueue` returns,
`handleMessage` writes the "message received: " log line right after it, before
any handler or `DeleteMessage` call, with the payload `readFromQueue` returned;
when the receive call failed or returned no message that payload is empty, the
line is still in the log and no handler call is in the cycle. -/
theorem C10_message_received_logged_when_read_returns (worker : Worker) (c : Collaborators) :
    (∀ receiptHandle payload, (readFromQueue worker c).2 = some (receiptHandle, payload) →
      ∃ rest, (handleMessage worker c).trace =
        (readFromQueue worker c).1
          ++ .println [.str "message received: ", .str payload] :: rest) ∧
    handlerCalls (readFromQueue worker c).1 = [] ∧
    deleteCalls (readFromQueue worker c).1 = [] ∧
    (((∃ err, c.ReceiveMessage (readFromQueueParams worker) = .error err) ∨
      (∃ resp, c.ReceiveMessage (readFromQueueParams worker) = .ok resp ∧ resp.Messages = [])) →
      (readFromQueue worker c).2 = some ("", "") ∧
      [.str "message received: ", .str ""] ∈ logLines (handleMessage worker c).trace ∧
      handlerCalls (handleMessage worker c).trace = []) ∧
    ((readFromQueue worker c).2 = none ↔
      ∃ resp m ms, c.ReceiveMessage (readFromQueueParams worker) = .ok resp ∧
        resp.Messages = m :: ms ∧ (m.Body = none ∨ m.ReceiptHandle = none)) ∧
    ((readFromQueue worker c).2 = none →
      (handleMessage worker c).trace = [.receiveMessage (readFromQueueParams worker)] ∧
      (handleMessage worker c).completed = false) := by
  obtain ⟨logs, hshape, -, hdel, hcall⟩ := readFromQueue_shape worker c
  have hiff : (readFromQueue worker c).2 = none ↔
      ∃ resp m ms, c.ReceiveMessage (readFromQueueParams worker) = .ok resp ∧
        resp.Messages = m :: ms ∧ (m.Body = none ∨ m.ReceiptHandle = none) := by
    constructor
    · intro hnone
      cases hrecv : c.ReceiveMessage (readFromQueueParams worker) with
      | error err => rw [readFromQueue_error worker c err hrecv] at hnone; simp at hnone
      | ok resp =>
        cases hmsgs : resp.Messages with
        | nil => rw [readFromQueue_empty worker c resp hrecv hmsgs] at hnone; simp at hnone
        | cons m ms =>
          refine ⟨resp, m, ms, rfl, hmsgs, ?_⟩
          cases hbody : m.Body with
          | none => exact Or.inl rfl
          | some body =>
            cases hhandle : m.ReceiptHandle with
            | none => exact Or.inr rfl
            | some handle =>
              rw [readFromQueue_message worker c resp m ms body handle hrecv hmsgs hbody
                hhandle] at hnone
              simp at hnone
    · rintro ⟨resp, m, ms, hrecv, hmsgs, habsent⟩
      rw [readFromQueue_absent worker c resp m ms hrecv hmsgs habsent]
  refine ⟨?_, ?_, ?_, ?_, hiff, ?_⟩
  · intro receiptHandle payload hsome
    rcases hread : readFromQueue worker c with ⟨t, r⟩
    rw [hread] at hsome
    simp only at hsome
    subst hsome
    by_cases hhandle : receiptHandle = ""
    · subst hhandle
      rw [handleMessage_no_handle worker c _ _ hread]
      exact ⟨[], rfl⟩
    · cases hret : c.handler payload with
      | false =>
        rw [handleMessage_aborted worker c _ _ _ hread hhandle hret]
        exact ⟨[Event.handlerCall payload], by simp⟩
      | true =>
        rw [handleMessage_handled worker c _ _ _ hread hhandle hret]
        exact ⟨Event.handlerCall payload :: Event.handlerReturn payload ::
          deleteMessage worker c receiptHandle, by simp⟩
  · rw [hshape]; simpa [handlerCalls] using hcall
  · rw [hshape]; simpa [deleteCalls] using hdel
  · rintro (⟨err, hrecv⟩ | ⟨resp, hrecv, hempty⟩)
    · have hread := readFromQueue_error worker c err hrecv
      rw [handleMessage_no_handle worker c _ _ hread, hread]
      simp [logLines, handlerCalls]
    · have hread := readFromQueue_empty worker c resp hrecv hempty
      rw [handleMessage_no_handle worker c _ _ hread, hread]
      simp [logLines, handlerCalls]
  · intro hnone
    obtain ⟨resp, m, ms, hrecv, hmsgs, habsent⟩ := hiff.mp hnone
    rw [handleMessage_panicked worker c _
      (readFromQueue_absent worker c resp m ms hrecv hmsgs habsent)]
    exact ⟨rfl, rfl⟩

theorem C10_message_received_logged_when_read_returns_witness :
    (readFromQueue mainWorker failingCycle).2 = some ("", "") ∧
    [.str "message received: ", .str ""] ∈ logLines (handleMessage mainWorker failingCycle).trace ∧
    handlerCalls (handleMessage mainWorker failingCycle).trace = [] :=
  (C10_message_received_logged_when_read_returns mainWorker failingCycle).2.2.2.1
    (Or.inl ⟨{ text := "RequestError: send request failed" }, rfl⟩)

/-! ## Runs of several cycles -/

/-- A cycle whose handler returns and whose received message carries both
members completes. -/
theorem handleMessage_completed (worker : Worker) (c : Collaborators)
    (hret : ∀ payload, c.handler payload = true) (hmem : membersPresent worker c = true) :
    (handleMessage worker c).completed = true := by
  rcases handleMessage_cases worker c with
    ⟨err, -, h⟩ | ⟨resp, -, -, h⟩ | ⟨resp, m, ms, hrecv, hmsgs, habsent, h⟩ |
    ⟨resp, m, ms, body, -, -, -, -, h⟩ | ⟨resp, m, ms, body, handle, -, -, -, -, -, hno, h⟩ |
    ⟨resp, m, ms, body, handle, -, -, -, -, -, -, h⟩
  · rw [h]
  · rw [h]
  · exfalso
    obtain ⟨b, r⟩ := m
    simp only [membersPresent, receivedMessage, hrecv, hmsgs, List.head?_cons] at hmem
    rcases habsent with hb | hr
    · simp only at hb; subst hb; simp at hmem
    · simp only at hr; subst hr; simp at hmem
  · rw [h]
  · rw [hret body] at hno; cases hno
  · rw [h]

/-- The handler and `DeleteMessage` calls of a cycle whose handler returns. -/
theorem handleMessage_calls (worker : Worker) (c : Collaborators)
    (hret : ∀ payload, c.handler payload = true) :
    handlerCalls (handleMessage worker c).trace
      = ((handledMessage worker c).map (fun m => m.1)).toList ∧
    deleteCalls (handleMessage worker c).trace
      = ((handledMessage worker c).map (deleteRequest worker)).toList := by
  rcases handleMessage_cases worker c with
    ⟨err, hrecv, h⟩ | ⟨resp, hrecv, hmsgs, h⟩ | ⟨resp, m, ms, hrecv, hmsgs, habsent, h⟩ |
    ⟨resp, m, ms, body, hrecv, hmsgs, hbody, hhandle, h⟩ |
    ⟨resp, m, ms, body, handle, -, -, -, -, -, hno, h⟩ |
    ⟨resp, m, ms, body, handle, hrecv, hmsgs, hbody, hhandle, hne, -, h⟩
  · rw [h]
    simp [handledMessage, receivedMessage, hrecv, handlerCalls, deleteCalls]
  · rw [h]
    simp [handledMessage, receivedMessage, hrecv, hmsgs, handlerCalls, deleteCalls]
  · rw [h]
    obtain ⟨b, r⟩ := m
    rcases habsent with hb | hr
    · simp only at hb; subst hb
      simp [handledMessage, receivedMessage, hrecv, hmsgs, handlerCalls, deleteCalls]
    · simp only at hr; subst hr
      cases b <;>
        simp [handledMessage, receivedMessage, hrecv, hmsgs, handlerCalls, deleteCalls]
  · rw [h]
    obtain ⟨b, r⟩ := m
    simp only at hbody hhandle
    subst hbody hhandle
    simp [handledMessage, receivedMessage, hrecv, hmsgs, handlerCalls, deleteCalls]
  · rw [hret body] at hno; cases hno
  · rw [h]
    obtain ⟨logs, hshape, -, hdel, hcall⟩ := deleteMessage_shape worker c handle
    obtain ⟨b, r⟩ := m
    simp only at hbody hhandle
    subst hbody hhandle
    simp [handledMessage, receivedMessage, hrecv, hmsgs, hne, handlerCalls, deleteCalls,
      hshape, hdel, hcall, deleteRequest]

/-- The handler and `DeleteMessage` calls of any cycle: the handler is called
for the handled message, `DeleteMessage` when in addition the handler returns. -/
theorem handleMessage_calls_any (worker : Worker) (c : Collaborators) :
    handlerCalls (handleMessage worker c).trace
      = ((handledMessage worker c).map (fun m => m.1)).toList ∧
    deleteCalls (handleMessage worker c).trace
      = (((handledMessage worker c).filter (fun m => c.handler m.1)).map
          (deleteRequest worker)).toList := by
  rcases handleMessage_cases worker c with
    ⟨err, hrecv, h⟩ | ⟨resp, hrecv, hmsgs, h⟩ | ⟨resp, m, ms, hrecv, hmsgs, habsent, h⟩ |
    ⟨resp, m, ms, body, hrecv, hmsgs, hbody, hhandle, h⟩ |
    ⟨resp, m, ms, body, handle, hrecv, hmsgs, hbody, hhandle, hne, hno, h⟩ |
    ⟨resp, m, ms, body, handle, hrecv, hmsgs, hbody, hhandle, hne, hret, h⟩
  · rw [h]
    simp [handledMessage, receivedMessage, hrecv, handlerCalls, deleteCalls, Option.filter]
  · rw [h]
    simp [handledMessage, receivedMessage, hrecv, hmsgs, handlerCalls, deleteCalls,
      Option.filter]
  · rw [h]
    obtain ⟨b, r⟩ := m
    rcases habsent with hb | hr
    · simp only at hb; subst hb
      simp [handledMessage, receivedMessage, hrecv, hmsgs, handlerCalls, deleteCalls,
        Option.filter]
    · simp only at hr; subst hr
      cases b <;>
        simp [handledMessage, receivedMessage, hrecv, hmsgs, handlerCalls, deleteCalls,
          Option.filter]
  · rw [h]
    obtain ⟨b, r⟩ := m
    simp only at hbody hhandle
    subst hbody hhandle
    simp [handledMessage, receivedMessage, hrecv, hmsgs, handlerCalls, deleteCalls,
      Option.filter]
  · rw [h]
    obtain ⟨b, r⟩ := m
    simp only at hbody hhandle
    subst hbody hhandle
    simp [handledMessage, receivedMessage, hrecv, hmsgs, hne, hno, handlerCalls, deleteCalls,
      Option.filter]
  · rw [h]
    obtain ⟨logs, hshape, -, hdel, hcall⟩ := deleteMessage_shape worker c handle
    obtain ⟨b, r⟩ := m
    simp only at hbody hhandle
    subst hbody hhandle
    simp [handledMessage, receivedMessage, hrecv, hmsgs, hne, hret, handlerCalls, deleteCalls,
      hshape, hdel, hcall, deleteRequest, Option.filter]

/-- A cycle does not complete exactly when its first message lacks a member or
the handler does not return on the handled message. -/
theorem handleMessage_not_completed_iff (worker : Worker) (c : Collaborators) :
    (handleMessage worker c).completed = false ↔
      membersPresent worker c = false ∨
      ∃ body handle, handledMessage worker c = some (body, handle) ∧ c.handler body = false := by
  rcases handleMessage_cases worker c with
    ⟨err, hrecv, h⟩ | ⟨resp, hrecv, hmsgs, h⟩ | ⟨resp, m, ms, hrecv, hmsgs, habsent, h⟩ |
    ⟨resp, m, ms, body, hrecv, hmsgs, hbody, hhandle, h⟩ |
    ⟨resp, m, ms, body, handle, hrecv, hmsgs, hbody, hhandle, hne, hno, h⟩ |
    ⟨resp, m, ms, body, handle, hrecv, hmsgs, hbody, hhandle, hne, hret, h⟩
  · rw [h]
    simp [membersPresent, handledMessage, receivedMessage, hrecv]
  · rw [h]
    simp [membersPresent, handledMessage, receivedMessage, hrecv, hmsgs]
  · rw [h]
    obtain ⟨b, r⟩ := m
    rcases habsent with hb | hr
    · simp only at hb; subst hb
      simp [membersPresent, receivedMessage, hrecv, hmsgs]
    · simp only at hr; subst hr
      simp [membersPresent, receivedMessage, hrecv, hmsgs]
  · rw [h]
    obtain ⟨b, r⟩ := m
    simp only at hbody hhandle
    subst hbody hhandle
    simp [membersPresent, handledMessage, receivedMessage, hrecv, hmsgs]
  · rw [h]
    obtain ⟨b, r⟩ := m
    simp only at hbody hhandle
    subst hbody hhandle
    simp [membersPresent, handledMessage, receivedMessage, hrecv, hmsgs, hne, hno]
  · rw [h]
    obtain ⟨b, r⟩ := m
    simp only at hbody hhandle
    subst hbody hhandle
    simp [membersPresent, handledMessage, receivedMessage, hrecv, hmsgs, hne, hret]

/-- A run whose first cycles all complete goes on with the remaining cycles. -/
theorem StartPolling_append (worker : Worker) (earlier rest : List Collaborators)
    (hdone : (StartPolling worker earlier).completed = true) :
    (StartPolling worker (earlier ++ rest)).trace =
      (StartPolling worker earlier).trace ++ (StartPolling worker rest).trace ∧
    (StartPolling worker (earlier ++ rest)).completed = (StartPolling worker rest).completed := by
  induction earlier with
  | nil => exact ⟨rfl, rfl⟩
  | cons e earlier ih =>
    cases he : (handleMessage worker e).completed with
    | false => simp [StartPolling, he] at hdone
    | true =>
      have hdone2 : (StartPolling worker earlier).completed = true := by
        simpa [StartPolling, he] using hdone
      obtain ⟨ih1, ih2⟩ := ih hdone2
      simp [StartPolling, he, ih1, ih2]

/-- C7, as stated, fails: a cycle whose receive call returned a message (with
the empty receipt handle) has no handler call and no `DeleteMessage` call. -/
theorem C7_counterexample_empty_receipt_handle :
    receivedMessage mainWorker emptyHandleCycle
      = some { Body := some "hello", ReceiptHandle := some "" } ∧
    handlerCalls (StartPolling mainWorker [emptyHandleCycle]).trace = [] ∧
    deleteCalls (StartPolling mainWorker [emptyHandleCycle]).trace = [] :=
  ⟨rfl, by decide, by decide⟩

/-- The handler and `DeleteMessage` calls of a run in which every handler
returns and every received message carries both members. -/
theorem StartPolling_calls (worker : Worker) (cs : List Collaborators)
    (hret : ∀ c ∈ cs, ∀ payload, c.handler payload = true)
    (hmem : ∀ c ∈ cs, membersPresent worker c = true) :
    handlerCalls (StartPolling worker cs).trace
      = (cs.filterMap (handledMessage worker)).map (fun m => m.1) ∧
    deleteCalls (StartPolling worker cs).trace
      = (cs.filterMap (handledMessage worker)).map (deleteRequest worker) ∧
    (StartPolling worker cs).completed = true ∧
    (∀ c ∈ cs,
      handlerCalls (handleMessage worker c).trace
        = ((handledMessage worker c).map (fun m => m.1)).toList ∧
      deleteCalls (handleMessage worker c).trace
        = ((handledMessage worker c).map (deleteRequest worker)).toList) ∧
    (∀ earlier c later, cs = earlier ++ c :: later →
      (StartPolling worker cs).trace =
        (StartPolling worker earlier).trace
          ++ .wait worker.pollingIntervall :: (handleMessage worker c).trace
          ++ (StartPolling worker later).trace) := by
  induction cs with
  | nil =>
    refine ⟨rfl, rfl, rfl, ?_, ?_⟩
    · intro c hc; cases hc
    · intro earlier c later h; simp at h
  | cons c cs ih =>
    have hc := hret c (List.mem_cons_self c cs)
    obtain ⟨ih1, ih2, ih3, ih4, ih5⟩ := ih (fun c' hc' => hret c' (List.mem_cons_of_mem c hc'))
      (fun c' hc' => hmem c' (List.mem_cons_of_mem c hc'))
    have hdone := handleMessage_completed worker c hc (hmem c (List.mem_cons_self c cs))
    obtain ⟨hcall, hdel⟩ := handleMessage_calls worker c hc
    have htrace : (StartPolling worker (c :: cs)).trace =
        .wait worker.pollingIntervall :: (handleMessage worker c).trace
          ++ (StartPolling worker cs).trace := by
      simp [StartPolling, hdone]
    refine ⟨?_, ?_, ?_, ?_, ?_⟩
    · rw [htrace, List.cons_append]
      simp only [handlerCalls, handlerCalls_append, hcall, ih1, List.filterMap_cons]
      cases handledMessage worker c <;> simp
    · rw [htrace, List.cons_append]
      simp only [deleteCalls, deleteCalls_append, hdel, ih2, List.filterMap_cons]
      cases handledMessage worker c <;> simp
    · simp [StartPolling, hdone, ih3]
    · intro c' hc'
      rcases List.mem_cons.mp hc' with rfl | hmem'
      · exact ⟨hcall, hdel⟩
      · exact ih4 c' hmem'
    · intro earlier c' later hsplit
      cases earlier with
      | nil =>
        simp only [List.nil_append, List.cons.injEq] at hsplit
        obtain ⟨rfl, rfl⟩ := hsplit
        rw [htrace]
        simp [StartPolling]
      | cons e earlier =>
        simp only [List.cons_append, List.cons.injEq] at hsplit
        obtain ⟨rfl, rfl⟩ := hsplit
        rw [htrace, ih5 earlier c' later rfl]
        simp [StartPolling, hdone]

/-- C7, amended: over a run of any number of poll cycles with any receive and
delete outcomes,
(1) when the handlers return and the received messages carry `Body` and
`ReceiptHandle`, the run completes and is the cycles one after the other, each
after its interval wait; the handler is called exactly once in each cycle whose
receive call returned a message with a non-empty receipt handle, with that
message's body, and in no other cycle; the handler calls of the run are these
bodies in cycle order and the `DeleteMessage` calls of the run carry the
worker's url and the receipt handles of the same messages in the same order;
(2) in any cycle the handler is called exactly once when the first message
carries both members and a non-empty receipt handle, and not otherwise, and
`DeleteMessage` is called once when in addition the handler returns;
(3) a cycle does not complete exactly when its first message lacks a member or
the handler does not return;
(4) in any run, after cycles that completed, the next cycle follows its
interval wait, and the later cycles follow only if it completes: a cycle that
does not complete ends the run. -/
theorem C7_run_handler_and_delete_calls (worker : Worker) (cs : List Collaborators) :
    ((∀ c ∈ cs, ∀ payload, c.handler payload = true) →
      (∀ c ∈ cs, membersPresent worker c = true) →
      handlerCalls (StartPolling worker cs).trace
        = (cs.filterMap (handledMessage worker)).map (fun m => m.1) ∧
      deleteCalls (StartPolling worker cs).trace
        = (cs.filterMap (handledMessage worker)).map (deleteRequest worker) ∧
      (StartPolling worker cs).completed = true ∧
      (∀ c ∈ cs,
        handlerCalls (handleMessage worker c).trace
          = ((handledMessage worker c).map (fun m => m.1)).toList ∧
        deleteCalls (handleMessage worker c).trace
          = ((handledMessage worker c).map (deleteRequest worker)).toList) ∧
      (∀ earlier c later, cs = earlier ++ c :: later →
        (StartPolling worker cs).trace =
          (StartPolling worker earlier).trace
            ++ .wait worker.pollingIntervall :: (handleMessage worker c).trace
            ++ (StartPolling worker later).trace)) ∧
    (∀ c : Collaborators,
      handlerCalls (handleMessage worker c).trace
        = ((handledMessage worker c).map (fun m => m.1)).toList ∧
      deleteCalls (handleMessage worker c).trace
        = (((handledMessage worker c).filter (fun m => c.handler m.1)).map
            (deleteRequest worker)).toList) ∧
    (∀ c : Collaborators, (handleMessage worker c).completed = false ↔
      membersPresent worker c = false ∨
      ∃ body handle, handledMessage worker c = some (body, handle) ∧ c.handler body = false) ∧
    (∀ earlier c later, cs = earlier ++ c :: later →
      (StartPolling worker earlier).completed = true →
      (StartPolling worker cs).trace =
        (StartPolling worker earlier).trace
          ++ .wait worker.pollingIntervall :: (handleMessage worker c).trace
          ++ (if (handleMessage worker c).completed then (StartPolling worker later).trace
              else []) ∧
      (StartPolling worker cs).completed =
        ((handleMessage worker c).completed && (StartPolling worker later).completed)) := by
  refine ⟨StartPolling_calls worker cs, handleMessage_calls_any worker,
    handleMessage_not_completed_iff worker, ?_⟩
  intro earlier c later hsplit hdone
  obtain ⟨h1, h2⟩ := StartPolling_append worker earlier (c :: later) hdone
  rw [hsplit, h1, h2]
  cases hc : (handleMessage worker c).completed <;> simp [StartPolling, hc]

theorem C7_run_handler_and_delete_calls_witness :
    (StartPolling mainWorker [failingCycle, helloCycle]).trace =
      [.wait 5000000000,
       .receiveMessage (readFromQueueParams mainWorker),
       .println [.str "reading"], .println [.str "RequestError: send request failed"],
       .println [.str "message received: ", .str ""],
       .wait 5000000000,
       .receiveMessage (readFromQueueParams mainWorker),
       .println [.str "message received: ", .str "hello"],
       .handlerCall "hello", .handlerReturn "hello",
       .deleteMessage { QueueUrl := mainWorker.url, ReceiptHandle := "h1" },
       .println [.deleteOutput {}]] ∧
    handlerCalls (StartPolling mainWorker [failingCycle, helloCycle]).trace = ["hello"] ∧
    (StartPolling mainWorker [helloCycle, emptyCycle]).trace =
      [.wait 5000000000,
       .receiveMessage (readFromQueueParams mainWorker),
       .println [.str "message received: ", .str "hello"],
       .handlerCall "hello", .handlerReturn "hello",
       .deleteMessage { QueueUrl := mainWorker.url, ReceiptHandle := "h1" },
       .println [.deleteOutput {}],
       .wait 5000000000,
       .receiveMessage (readFromQueueParams mainWorker),
       .println [.str "message received: ", .str ""]] ∧
    handlerCalls (StartPolling mainWorker [helloCycle, emptyCycle]).trace = ["hello"] ∧
    deleteCalls (StartPolling mainWorker [helloCycle, emptyCycle]).trace =
      [{ QueueUrl := mainWorker.url, ReceiptHandle := "h1" }] :=
  have h1 := (C7_run_handler_and_delete_calls mainWorker [failingCycle, helloCycle]).1
    (by intro c hc payload; simp at hc; rcases hc with rfl | rfl <;> rfl)
    (by intro c hc; simp at hc; rcases hc with rfl | rfl <;> rfl)
  have h2 := (C7_run_handler_and_delete_calls mainWorker [helloCycle, emptyCycle]).1
    (by intro c hc payload; simp at hc; rcases hc with rfl | rfl <;> rfl)
    (by intro c hc; simp at hc; rcases hc with rfl | rfl <;> rfl)
  ⟨by decide, h1.1.trans (by decide), by decide, h2.1.trans (by decide), h2.2.1.trans (by decide)⟩

end SqsWorker
